import Mathlib

/-!
Verification of the dashcam geolocation analysis pipeline
(`src/dashcam_analyzer.py`) against its specification.

The development shallowly embeds the data-reconstruction pipeline:

* `parseLine` / `mkDataFrame` / `readAndParseData` embed
  `DashcamAnalyzer.read_and_parse_data` (lines 38-75);
* `applySouthFlag` / `applyWestFlag` embed the hemisphere sign handling of
  `clean_and_transform_data` (lines 84-91);
* `sortByDatetime`, `withTimeDiff`, `assignAux` / `segRows` embed the
  sort / `diff().fillna(0)` / `groupby('day_id')[...].transform(cumsum)`
  trip segmentation of `clean_and_transform_data` (lines 106-120);
* `dayIdOf`, `readSource`, `collectDfs`, `runAnalysis` embed the
  multi-file orchestration of `run_analysis` (lines 327-372);
* `timeGroups`, `groupByKey`, `buildDaysDataFile` / `buildDaysStandalone`
  embed the export structurers `generate_data_file` (lines 256-318) and
  `generate_standalone_html` (lines 378-434).

Timestamps are modelled as absolute counts of seconds (`Nat`): the code only
ever subtracts datetimes (`diff().dt.total_seconds()`), compares them, steps
them by 30-second increments, and renders them, all of which are functions of
the absolute second count.  Coordinates are modelled as `ℚ` (the decimal text
parsed by `pd.to_numeric`); the haversine distance is modelled over `ℝ`.
Python strings are modelled as `String` but all parsing is done on the
underlying `List Char` by structural recursion so that every definition
evaluates inside the kernel.

`sort_values('datetime')` uses numpy's default sort.  For the frame sizes
appearing in every concrete input of this file numpy's introsort runs its
insertion-sort base case, which is exactly a stable insertion sort, so the
sort is modelled by `List.insertionSort` on the instant; note that for large
frames numpy's default sort gives no stability guarantee.
-/

/-- A normalized record ("Point"): instant in seconds, signed coordinates,
the rendered `popup_info` string, and the source tag `day_id` added by
`run_analysis` (line 349). -/
structure Point where
  instant : Nat
  latitude : ℚ
  longitude : ℚ
  popup : String
  day_id : String
deriving DecidableEq

/-! ### Record parser (`read_and_parse_data`, lines 38-75) -/

/-- Whitespace stripped by Python's `str.strip()` (ASCII subset). -/
def isPySpace (c : Char) : Bool :=
  c = ' ' || c = '\t' || c = '\n' || c = '\r' ||
    c = Char.ofNat 11 || c = Char.ofNat 12

/-- `line.strip()` (line 47). -/
def stripLine (s : String) : List Char :=
  ((s.data.dropWhile isPySpace).reverse.dropWhile isPySpace).reverse

/-- `line.split(',')` (line 55): split on every comma, keeping empty fields. -/
def splitOnComma : List Char → List (List Char)
  | [] => [[]]
  | c :: rest =>
    if c = ',' then [] :: splitOnComma rest
    else
      match splitOnComma rest with
      | [] => [[c]]
      | f :: fs => (c :: f) :: fs

/-- `re.match(r'^\d{14},', line)` (line 54): 14 decimal digits followed by a
comma. -/
def matchesTsPattern (cs : List Char) : Bool :=
  ((cs.take 14).length == 14 && (cs.take 14).all (fun c => c.isDigit)) &&
    (cs.drop 14).take 1 == [',']

/-- One iteration of the parsing loop (lines 46-61): `none` for a skipped or
rejected line, `some parts` when the line survives.  Note that the whole
split (`parts`), not its first 7 fields, is appended (line 57). -/
def parseLine (line : String) : Option (List String) :=
  let l := stripLine line
  if l.isEmpty || l.head? = some '#' then none
  else if matchesTsPattern l then
    let parts := (splitOnComma l).map (fun cs => String.mk cs)
    if 7 ≤ parts.length then some parts else none
  else none

/-- `pd.DataFrame(data_lines, columns=[7 names])` (lines 70-72).  Every
surviving row has at least 7 fields; pandas builds the frame successfully
exactly when no row is longer than the 7 supplied column names, and raises
`ValueError: 7 columns passed, passed data had N columns` otherwise. -/
def mkDataFrame (rows : List (List String)) : Except String (List (List String)) :=
  if rows.all (fun r => r.length == 7) then Except.ok rows
  else Except.error "7 columns passed, passed data had more columns"

/-- `read_and_parse_data` on the decoded lines of one file (lines 42-75). -/
def readAndParseData (lines : List String) : Except String (List (List String)) :=
  let dataLines := lines.filterMap parseLine
  if dataLines.isEmpty then
    Except.error "Aucune donnee valide trouvee dans le fichier"
  else mkDataFrame dataLines

/-! ### Normalizer sign handling (`clean_and_transform_data`, lines 84-91) -/

/-- `df.loc[df['lat_indicator'] == 'S', 'latitude'] *= -1` (line 87). -/
def applySouthFlag (lat : ℚ) (ind : String) : ℚ :=
  if ind = "S" then -lat else lat

/-- `df.loc[df['lon_indicator'] == 'W', 'longitude'] *= -1` (line 91). -/
def applyWestFlag (lon : ℚ) (ind : String) : ℚ :=
  if ind = "W" then -lon else lon

/-! ### Trip segmenter (`clean_and_transform_data`, lines 106-120) -/

/-- The comparison used by `sort_values('datetime')` (line 107). -/
def ptLE (a b : Point) : Prop := a.instant ≤ b.instant

instance : DecidableRel ptLE :=
  fun a b => inferInstanceAs (Decidable (a.instant ≤ b.instant))

instance : IsTotal Point ptLE := ⟨fun a b => Nat.le_total a.instant b.instant⟩

instance : IsTrans Point ptLE := ⟨fun _ _ _ => Nat.le_trans⟩

/-- The strict version of `ptLE`, used to compare sorted outputs. -/
def ptLT (a b : Point) : Prop := a.instant < b.instant

instance : IsAntisymm Point ptLT := ⟨fun _ _ h1 h2 => absurd h2 (Nat.lt_asymm h1)⟩

/-- `self.df = self.df.sort_values('datetime')` (line 107); see the header
note on stability. -/
def sortByDatetime (df : List Point) : List Point := List.insertionSort ptLE df

/-- Tail of `datetime.diff()`: each point paired with its distance in seconds
to the immediately preceding row of the *whole* sorted frame. -/
def withTimeDiffAux (prev : Point) : List Point → List (Point × Nat)
  | [] => []
  | q :: qs => (q, q.instant - prev.instant) :: withTimeDiffAux q qs

/-- `df['time_diff'] = df['datetime'].diff().dt.total_seconds().fillna(0)`
(line 110): only the first row of the whole frame gets the fill value 0. -/
def withTimeDiff : List Point → List (Point × Nat)
  | [] => []
  | p :: ps => (p, 0) :: withTimeDiffAux p ps

/-- `(x > trip_threshold)` summand of the cumulative sum, with
`trip_threshold = 30 * 60` (line 111). -/
def bumpN (acc g : Nat) : Nat := if 1800 < g then acc + 1 else acc

/-- Point update of the per-day-id counter map. -/
def updateCtr (ctr : String → Nat) (d : String) (v : Nat) : String → Nat :=
  fun x => if x = d then v else ctr x

/-- `df.groupby('day_id')['time_diff'].transform(lambda x: (x >
trip_threshold).cumsum())` (line 115): walk the rows in frame order keeping
one running cumulative sum per day id; each row receives the cumulative sum
of its own day-id group up to and including itself. -/
def assignAux (ctr : String → Nat) : List (Point × Nat) → List ((Point × Nat) × Nat)
  | [] => []
  | (p, g) :: rest =>
    ((p, g), bumpN (ctr p.day_id) g) ::
      assignAux (updateCtr ctr p.day_id (bumpN (ctr p.day_id) g)) rest

/-- The fully segmented frame: each row is `((point, time_diff), trip_id)`,
in sorted order, exactly the columns used downstream. -/
def segRows (df : List Point) : List ((Point × Nat) × Nat) :=
  assignAux (fun _ => 0) (withTimeDiff (sortByDatetime df))

/-- The observable outcome of segmentation: which trip id each point got. -/
def segAssign (df : List Point) : List (Point × Nat) :=
  (segRows df).map (fun r => (r.1.1, r.2))

/-- The rows of one day id, in frame order (what `groupby('day_id')` hands to
the per-day consumers). -/
def dayRows (df : List Point) (d : String) : List ((Point × Nat) × Nat) :=
  (segRows df).filter (fun r => r.1.1.day_id == d)

/-- The rows of one trip of one day id, in frame order. -/
def tripRows (df : List Point) (d : String) (i : Nat) : List ((Point × Nat) × Nat) :=
  (dayRows df d).filter (fun r => r.2 == i)

/-- The `time_diff` value attributed to the first row of a day-id group. -/
def firstDayGap (df : List Point) (d : String) : Option Nat :=
  (((withTimeDiff (sortByDatetime df)).filter
      (fun r => r.1.day_id == d)).head?).map (fun r => r.2)

/-- The trip id of the first row of a day-id group. -/
def firstDayTripId (df : List Point) (d : String) : Option Nat :=
  ((dayRows df d).head?).map (fun r => r.2)

/-- Gaps between consecutive entries of a list of instants. -/
def consecGaps : List Nat → List Nat
  | a :: b :: rest => (b - a) :: consecGaps (b :: rest)
  | _ => []

/-- `dayCumsum acc rows` is `(rows > 1800).cumsum() + acc` restricted to one
day-id group: the reference semantics of the `transform` of line 115. -/
def dayCumsum (acc : Nat) : List (Point × Nat) → List ((Point × Nat) × Nat)
  | [] => []
  | (p, g) :: rest => ((p, g), bumpN acc g) :: dayCumsum (bumpN acc g) rest

/-! ### Concrete inputs used by counterexamples and witnesses -/

/-- A point carrying only what segmentation looks at. -/
def mkPt (t : Nat) (d : String) : Point :=
  { instant := t, latitude := 0, longitude := 0, popup := "", day_id := d }

/-- Two day ids whose recordings are a long time apart. -/
def exGapDays : List Point := [mkPt 0 "a", mkPt 100000 "b"]

/-- A day id whose two recordings are bridged by a point of another day id. -/
def exBridged : List Point := [mkPt 0 "a", mkPt 1800 "b", mkPt 3600 "a"]

/-- Two presentations of one multiset: two points share instant 5000 but
belong to different day ids. -/
def exOrderA : List Point := [mkPt 0 "a", mkPt 5000 "a", mkPt 5000 "b"]

/-- The same multiset as `exOrderA` with the tied points swapped. -/
def exOrderB : List Point := [mkPt 0 "a", mkPt 5000 "b", mkPt 5000 "a"]

/-- One day id whose recordings fall into two trips (gap 2000 s). -/
def exTwoTrips : List Point := [mkPt 0 "a", mkPt 2000 "a"]

/-! ### Run orchestration (`run_analysis`, lines 327-372) -/

/-- Digit string to number, most significant first. -/
def natOfDigits (cs : List Char) : Nat :=
  cs.foldl (fun a c => a * 10 + (c.toNat - 48)) 0

/-- Gregorian leap-year rule used by `datetime.strptime`. -/
def isLeapYear (y : Nat) : Bool :=
  (y % 4 == 0 && y % 100 != 0) || y % 400 == 0

/-- Length of a month, as validated by `strptime('%Y%m%d')`. -/
def daysInMonth (y m : Nat) : Nat :=
  if m == 2 then (if isLeapYear y then 29 else 28)
  else if m == 4 || m == 6 || m == 9 || m == 11 then 30 else 31

/-- Two-digit zero padding, as in `strftime` numeric fields. -/
def pad2 (n : Nat) : String := if n < 10 then "0" ++ toString n else toString n

/-- Lines 338-345: try `datetime.strptime(base, '%Y%m%d')` on the source's
base name and reformat as `%d/%m/%Y`; keep the base name verbatim when
parsing fails (wrong shape or out-of-range month/day). -/
def dayIdOf (base : String) : String :=
  let cs := base.data
  if cs.length == 8 && cs.all (fun c => c.isDigit) then
    let y := natOfDigits (cs.take 4)
    let m := natOfDigits ((cs.drop 4).take 2)
    let d := natOfDigits ((cs.drop 6).take 2)
    if 1 ≤ m ∧ m ≤ 12 ∧ 1 ≤ d ∧ d ≤ daysInMonth y m then
      pad2 d ++ "/" ++ pad2 m ++ "/" ++ toString y
    else base
  else base

/-- One selected input source: its base name (extension already removed by
`os.path.splitext(os.path.basename(...))`, line 338) and, when the file is
readable, its decoded lines. -/
inductive Source where
  | unreadable (baseName : String)
  | readable (baseName : String) (lines : List String)

/-- The base name of a source. -/
def sourceBaseName : Source → String
  | Source.unreadable n => n
  | Source.readable n _ => n

/-- `read_and_parse_data(file_path)` (line 347): an unreadable file raises
from the wrapped `open` (lines 63-64); a readable file parses its lines. -/
def readSource : Source → Except String (List (List String))
  | Source.unreadable _ => Except.error "Erreur lors de la lecture du fichier"
  | Source.readable _ lines => readAndParseData lines

/-- The loop of lines 337-350: each source is read (any raise aborts the
whole loop, there is no per-file handler), tagged with its day id, and
appended when non-empty. -/
def collectDfs : List Source → Except String (List (List (List String) × String))
  | [] => Except.ok []
  | s :: rest => do
    let df ← readSource s
    let tail ← collectDfs rest
    if df.isEmpty then pure tail
    else pure ((df, dayIdOf (sourceBaseName s)) :: tail)

/-- `run_analysis` up to the merged frame (lines 331-355): `none` when no
file was selected (early return, line 332-334), the aggregate error of line
353 when the loop produced nothing, otherwise the `pd.concat` of line 355
with each row tagged by its day id. -/
def runAnalysis (sources : List Source) :
    Except String (Option (List (List String × String))) :=
  if sources.isEmpty then Except.ok none
  else do
    let dfs ← collectDfs sources
    if dfs.isEmpty then
      Except.error "Aucune donnee valide trouvee dans les fichiers selectionnes"
    else
      Except.ok (some ((dfs.map (fun g => g.1.map (fun row => (row, g.2)))).flatten))

/-! ### Export structurer (`generate_data_file`, lines 256-318, and
`generate_standalone_html`, lines 378-434) -/

/-- `strftime('%H:%M:%S')` of an instant (time of day of the absolute
second count). -/
def fmtHMS (t : Nat) : String :=
  pad2 (t / 3600 % 24) ++ ":" ++ pad2 (t / 60 % 60) ++ ":" ++ pad2 (t % 60)

/-- The `%Y-%m-%d` date text of an instant.  Rendered here as the day
ordinal: the civil-date text is a bijective function of `t / 86400` and no
claim inspects its spelling. -/
def fmtDate (t : Nat) : String := toString (t / 86400)

/-- `datetime.isoformat()` (lines 271/394). -/
def fmtISO (t : Nat) : String := fmtDate t ++ "T" ++ fmtHMS t

/-- `strftime('%Y-%m-%d %H:%M:%S')` (lines 300-301/423-424). -/
def fmtFull (t : Nat) : String := fmtDate t ++ " " ++ fmtHMS t

/-- Duration formatting of lines 280-283/403-406: integer hours and leftover
minutes, seconds discarded. -/
def durationStr (total : Nat) : String :=
  if 0 < total / 3600 then
    toString (total / 3600) ++ "h " ++ toString (total % 3600 / 60) ++ "min"
  else toString (total % 3600 / 60) ++ "min"

/-- The `while current_time <= end_time` loop of lines 286-294/409-417,
one step per 30-second increment.  The loop advances `current_time` by 30
seconds per iteration, so `endT + 1 - cur` iterations always suffice; the
first argument is that structural bound (it is never exhausted). -/
def timeGroupsGo : Nat → Nat → Nat → Nat → List (Nat × String)
  | 0, _, _, _ => []
  | fuel + 1, endT, cur, idx =>
    if cur ≤ endT then (idx, fmtHMS cur) :: timeGroupsGo fuel endT (cur + 30) (idx + 1)
    else []

/-- The discretized time-group sequence of a trip. -/
def timeGroups (startT endT : Nat) : List (Nat × String) :=
  timeGroupsGo (endT + 1 - startT) endT startT 0

/-- `series.min()` on the instants of a non-empty trip. -/
def seriesMin : List Nat → Nat
  | [] => 0
  | x :: xs => xs.foldl Nat.min x

/-- `series.max()` on the instants of a non-empty trip. -/
def seriesMax : List Nat → Nat
  | [] => 0
  | x :: xs => xs.foldl Nat.max x

/-- `series.mean()` over exact rationals. -/
def meanQ (l : List ℚ) : ℚ := l.sum / l.length

/-- Distinct keys of a collection in first-encountered order. -/
def distinctKeysBy {α κ : Type} [DecidableEq κ] (key : α → κ) (l : List α) : List κ :=
  l.foldl (fun acc x => if key x ∈ acc then acc else acc ++ [key x]) []

/-- Python `str` comparison: code-point lexicographic. -/
def strLeB : List Char → List Char → Bool
  | [], _ => true
  | _ :: _, [] => false
  | c :: cs, d :: ds => if c = d then strLeB cs ds else decide (c < d)

/-- The order in which `groupby` enumerates string keys. -/
def strLeP (a b : String) : Prop := strLeB a.data b.data = true

instance : DecidableRel strLeP :=
  fun a b => inferInstanceAs (Decidable (strLeB a.data b.data = true))

instance : IsTotal String strLeP where
  total a b := by
    show strLeB a.data b.data = true ∨ strLeB b.data a.data = true
    generalize a.data = x
    generalize b.data = y
    induction x generalizing y with
    | nil => exact Or.inl rfl
    | cons c cs ih =>
      cases y with
      | nil => exact Or.inr rfl
      | cons d ds =>
        by_cases hcd : c = d
        · subst hcd
          simpa [strLeB] using ih ds
        · rcases lt_trichotomy c d with h1 | h2 | h3
          · exact Or.inl (by simp [strLeB, hcd, h1])
          · exact absurd h2 hcd
          · exact Or.inr (by simp [strLeB, Ne.symm hcd, h3])

instance : IsTrans String strLeP where
  trans a b c := by
    show strLeB a.data b.data = true → strLeB b.data c.data = true →
      strLeB a.data c.data = true
    generalize a.data = x
    generalize b.data = y
    generalize c.data = z
    induction x generalizing y z with
    | nil => intro _ _; rfl
    | cons u us ih =>
      intro h1 h2
      cases y with
      | nil => simp [strLeB] at h1
      | cons v vs =>
        cases z with
        | nil => simp [strLeB] at h2
        | cons w ws =>
          by_cases huv : u = v
          · subst huv
            by_cases hvw : u = w
            · subst hvw
              simp only [strLeB, if_pos rfl] at h1 h2 ⊢
              exact ih vs ws h1 h2
            · simp only [strLeB, if_pos rfl] at h1
              simpa [strLeB, hvw] using h2
          · by_cases hvw : v = w
            · subst hvw
              simp only [strLeB, if_neg huv] at h1
              simpa [strLeB, huv] using h1
            · simp only [strLeB, if_neg huv] at h1
              simp only [strLeB, if_neg hvw] at h2
              have huw : u < w := lt_trans (of_decide_eq_true h1) (of_decide_eq_true h2)
              simp [strLeB, ne_of_lt huw, huw]

/-- `df.groupby(key)` with the default `sort=True`: the distinct keys in
ascending order, each with its rows in frame order. -/
def groupByKey {α κ : Type} [DecidableEq κ] (key : α → κ) (le : κ → κ → Prop)
    [DecidableRel le] (l : List α) : List (κ × List α) :=
  (List.insertionSort le (distinctKeysBy key l)).map
    (fun k => (k, l.filter (fun x => decide (key x = k))))

/-- `haversine(lon1, lat1, lon2, lat2)` (lines 233-241), over `ℝ`. -/
noncomputable def haversine (lon1 lat1 lon2 lat2 : ℚ) : ℝ :=
  let rlon1 := (lon1 : ℝ) * Real.pi / 180
  let rlat1 := (lat1 : ℝ) * Real.pi / 180
  let rlon2 := (lon2 : ℝ) * Real.pi / 180
  let rlat2 := (lat2 : ℝ) * Real.pi / 180
  let dlon := rlon2 - rlon1
  let dlat := rlat2 - rlat1
  let a := Real.sin (dlat / 2) ^ 2 +
    Real.cos rlat1 * Real.cos rlat2 * Real.sin (dlon / 2) ^ 2
  2 * Real.arcsin (Real.sqrt a) * 6371

/-- The summation loop of lines 243-252. -/
noncomputable def pairDistSum : List Point → ℝ
  | a :: b :: rest =>
    haversine a.longitude a.latitude b.longitude b.latitude + pairDistSum (b :: rest)
  | _ => 0

/-- `_calculate_distance_for_df` (lines 229-254), including the
`len(df) > 1` guard. -/
noncomputable def calcDistanceForDf (ps : List Point) : ℝ :=
  if 1 < ps.length then pairDistSum ps else 0

/-- One exported point dictionary (lines 266-272/389-395). -/
structure PointOut where
  lat : ℚ
  lon : ℚ
  popup : String
  time : String
  datetime : String
deriving DecidableEq

/-- One exported trip dictionary (lines 296-308/419-431).  `distance_km` is
the number formatted by `f"{distance_km:.2f} km"`; both generators format the
same value identically. -/
structure TripOut where
  id : Nat
  points : List PointOut
  time_groups : List (Nat × String)
  start_time_full : String
  end_time_full : String
  start_time : String
  end_time : String
  center : ℚ × ℚ
  point_count : Nat
  duration_str : String
  distance_km : ℝ

/-- One exported day dictionary (lines 310-313/432). -/
structure DayOut where
  day_id : String
  trips : List TripOut

/-- The day→trip→point hierarchy built by `generate_data_file`
(lines 260-313). -/
noncomputable def buildDaysDataFile (df : List Point) : List DayOut :=
  (groupByKey (fun r => r.1.1.day_id) strLeP (segRows df)).map (fun dayGroup =>
    { day_id := dayGroup.1,
      trips := (groupByKey (fun r => r.2) (· ≤ ·) dayGroup.2).map (fun tripGroup =>
        let pts := tripGroup.2.map (fun r => r.1.1)
        let instants := pts.map (fun p => p.instant)
        let startT := seriesMin instants
        let endT := seriesMax instants
        { id := tripGroup.1,
          points := pts.map (fun p =>
            { lat := p.latitude, lon := p.longitude, popup := p.popup,
              time := fmtHMS p.instant, datetime := fmtISO p.instant }),
          time_groups := timeGroups startT endT,
          start_time_full := fmtFull startT,
          end_time_full := fmtFull endT,
          start_time := fmtHMS startT,
          end_time := fmtHMS endT,
          center := (meanQ (pts.map (fun p => p.latitude)),
                     meanQ (pts.map (fun p => p.longitude))),
          point_count := pts.length,
          duration_str := durationStr (endT - startT),
          distance_km := calcDistanceForDf pts }) })

/-- The day→trip→point hierarchy built by `generate_standalone_html`
(lines 383-432): the source block is a verbatim copy of the one in
`generate_data_file`. -/
noncomputable def buildDaysStandalone (df : List Point) : List DayOut :=
  (groupByKey (fun r => r.1.1.day_id) strLeP (segRows df)).map (fun dayGroup =>
    { day_id := dayGroup.1,
      trips := (groupByKey (fun r => r.2) (· ≤ ·) dayGroup.2).map (fun tripGroup =>
        let pts := tripGroup.2.map (fun r => r.1.1)
        let instants := pts.map (fun p => p.instant)
        let startT := seriesMin instants
        let endT := seriesMax instants
        { id := tripGroup.1,
          points := pts.map (fun p =>
            { lat := p.latitude, lon := p.longitude, popup := p.popup,
              time := fmtHMS p.instant, datetime := fmtISO p.instant }),
          time_groups := timeGroups startT endT,
          start_time_full := fmtFull startT,
          end_time_full := fmtFull endT,
          start_time := fmtHMS startT,
          end_time := fmtHMS endT,
          center := (meanQ (pts.map (fun p => p.latitude)),
                     meanQ (pts.map (fun p => p.longitude))),
          point_count := pts.length,
          duration_str := durationStr (endT - startT),
          distance_km := calcDistanceForDf pts }) })

/-- Day ids of a segmented collection whose lexicographic key order differs
from encounter order: "b" is seen first. -/
def exDayOrder : List Point := [mkPt 0 "b", mkPt 10 "a"]

/-- Two selected sources: the first readable but with no valid line, the
second named like a date and containing one valid record. -/
def exSources : List Source :=
  [Source.readable "a" ["# commentaire"],
   Source.readable "20240101" ["20240101080000,48.8566,N,2.3522,E,10.5,0.0"]]

/-- The second of the two sources of `exSources`, alone. -/
def exGoodSource : List Source :=
  [Source.readable "20240101" ["20240101080000,48.8566,N,2.3522,E,10.5,0.0"]]

/-! ### Structural lemmas about the segmenter -/

theorem mem_of_head_eq {α : Type} {l : List α} {a : α} (h : l.head? = some a) :
    a ∈ l := by
  cases l with
  | nil => simp at h
  | cons x xs =>
    simp only [List.head?_cons, Option.some.injEq] at h
    exact h ▸ List.mem_cons_self x xs

theorem pairwise_mem_rel {α : Type} {R : α → α → Prop} {l : List α}
    (h : l.Pairwise R) {a b : α} (ha : a ∈ l) (hb : b ∈ l) (hne : a ≠ b) :
    R a b ∨ R b a := by
  induction h with
  | nil => simp at ha
  | cons hhead _ ih =>
    rcases List.mem_cons.mp ha with rfl | ha'
    · rcases List.mem_cons.mp hb with rfl | hb'
      · exact absurd rfl hne
      · exact Or.inl (hhead b hb')
    · rcases List.mem_cons.mp hb with rfl | hb'
      · exact Or.inr (hhead a ha')
      · exact ih ha' hb'

theorem withTimeDiffAux_map_fst (l : List Point) :
    ∀ prev, (withTimeDiffAux prev l).map Prod.fst = l := by
  induction l with
  | nil => intro prev; rfl
  | cons q qs ih => intro prev; simp [withTimeDiffAux, ih]

theorem withTimeDiff_map_fst (l : List Point) :
    (withTimeDiff l).map Prod.fst = l := by
  cases l with
  | nil => rfl
  | cons p ps => simp [withTimeDiff, withTimeDiffAux_map_fst]

theorem assignAux_map_fst (rows : List (Point × Nat)) :
    ∀ ctr, (assignAux ctr rows).map Prod.fst = rows := by
  induction rows with
  | nil => intro ctr; rfl
  | cons head rest ih =>
    intro ctr
    obtain ⟨p, g⟩ := head
    simp [assignAux, ih]

theorem assignAux_filter_day (d : String) (rows : List (Point × Nat)) :
    ∀ ctr : String → Nat,
      (assignAux ctr rows).filter (fun r => r.1.1.day_id == d)
        = dayCumsum (ctr d) (rows.filter (fun r => r.1.day_id == d)) := by
  induction rows with
  | nil => intro ctr; rfl
  | cons head rest ih =>
    intro ctr
    obtain ⟨p, g⟩ := head
    by_cases hd : p.day_id = d
    · subst hd
      simp [assignAux, List.filter_cons, dayCumsum, ih, updateCtr]
    · simp [assignAux, List.filter_cons, hd, ih, updateCtr, Ne.symm hd]

theorem withTimeDiffAux_pairwise (l : List Point) :
    ∀ prev, (prev :: l).Pairwise ptLE →
      (withTimeDiffAux prev l).Pairwise
          (fun a b => a.1.instant + b.2 ≤ b.1.instant)
        ∧ ∀ b ∈ withTimeDiffAux prev l, prev.instant + b.2 ≤ b.1.instant := by
  induction l with
  | nil => intro prev _; exact ⟨List.Pairwise.nil, by simp [withTimeDiffAux]⟩
  | cons q qs ih =>
    intro prev h
    obtain ⟨hq, hrest⟩ := List.pairwise_cons.mp h
    have hpq : prev.instant ≤ q.instant := hq q (List.mem_cons_self q qs)
    have ihq := ih q hrest
    constructor
    · refine List.pairwise_cons.mpr ⟨?_, ihq.1⟩
      intro b hb
      exact ihq.2 b hb
    · intro b hb
      rcases List.mem_cons.mp hb with rfl | hb'
      · simp only []
        omega
      · have := ihq.2 b hb'
        omega

theorem withTimeDiff_pairwise (l : List Point) (h : l.Pairwise ptLE) :
    (withTimeDiff l).Pairwise (fun a b => a.1.instant + b.2 ≤ b.1.instant) := by
  cases l with
  | nil => exact List.Pairwise.nil
  | cons p ps =>
    have aux := withTimeDiffAux_pairwise ps p h
    exact List.pairwise_cons.mpr ⟨fun b hb => aux.2 b hb, aux.1⟩

theorem assignAux_pairwise {R : Point × Nat → Point × Nat → Prop}
    (rows : List (Point × Nat)) (h : rows.Pairwise R) (ctr : String → Nat) :
    (assignAux ctr rows).Pairwise (fun a b => R a.1 b.1) := by
  have hm : ((assignAux ctr rows).map Prod.fst).Pairwise R := by
    rw [assignAux_map_fst rows ctr]; exact h
  exact List.pairwise_map.mp hm

theorem withTimeDiff_pairwise_of {R : Point → Point → Prop}
    (l : List Point) (h : l.Pairwise R) :
    (withTimeDiff l).Pairwise (fun a b => R a.1 b.1) := by
  have hm : ((withTimeDiff l).map Prod.fst).Pairwise R := by
    rw [withTimeDiff_map_fst]; exact h
  exact List.pairwise_map.mp hm

/-- Instants along the segmented frame are non-decreasing. -/
theorem segRows_pairwise_le (df : List Point) :
    (segRows df).Pairwise (fun a b => a.1.1.instant ≤ b.1.1.instant) := by
  have hs : (sortByDatetime df).Pairwise ptLE :=
    List.sorted_insertionSort ptLE df
  exact assignAux_pairwise _ (withTimeDiff_pairwise_of _ hs) _

/-- Along the segmented frame, any earlier row's instant plus a later row's
recorded `time_diff` is bounded by the later row's instant. -/
theorem segRows_pairwise_gap (df : List Point) :
    (segRows df).Pairwise (fun a b => a.1.1.instant + b.1.2 ≤ b.1.1.instant) := by
  have hs : (sortByDatetime df).Pairwise ptLE :=
    List.sorted_insertionSort ptLE df
  exact assignAux_pairwise _ (withTimeDiff_pairwise _ hs) _

theorem dayCumsum_id_lb (l : List (Point × Nat)) :
    ∀ acc, ∀ b ∈ dayCumsum acc l, acc ≤ b.2 := by
  induction l with
  | nil => intro acc b hb; simp [dayCumsum] at hb
  | cons head rest ih =>
    intro acc b hb
    obtain ⟨p, g⟩ := head
    have hstep : acc ≤ bumpN acc g := by unfold bumpN; split <;> omega
    rcases List.mem_cons.mp hb with rfl | hb'
    · exact hstep
    · exact le_trans hstep (ih (bumpN acc g) b hb')

theorem dayCumsum_id_mono (l : List (Point × Nat)) :
    ∀ acc, (dayCumsum acc l).Pairwise (fun a b => a.2 ≤ b.2) := by
  induction l with
  | nil => intro acc; exact List.Pairwise.nil
  | cons head rest ih =>
    intro acc
    obtain ⟨p, g⟩ := head
    exact List.pairwise_cons.mpr
      ⟨fun b hb => dayCumsum_id_lb rest (bumpN acc g) b hb, ih (bumpN acc g)⟩

/-- The first row whose trip id strictly exceeds the incoming counter must
have crossed the threshold. -/
theorem dayCumsum_boundary (l : List (Point × Nat)) :
    ∀ acc j, acc < j → ∀ q,
      ((dayCumsum acc l).filter (fun r => r.2 == j)).head? = some q →
      1800 < q.1.2 := by
  induction l with
  | nil => intro acc j _ q hq; simp [dayCumsum] at hq
  | cons head rest ih =>
    intro acc j hlt q hq
    obtain ⟨p, g⟩ := head
    rw [dayCumsum, List.filter_cons] at hq
    by_cases he : bumpN acc g = j
    · have hg : 1800 < g := by
        unfold bumpN at he; split at he <;> omega
      simp only [he, beq_self_eq_true, if_pos, List.head?_cons,
        Option.some.injEq] at hq
      rw [← hq]
      exact hg
    · have hne : ((((p, g), bumpN acc g) : (Point × Nat) × Nat).2 == j) = false := by
        simp [he]
      rw [hne, if_neg (by simp)] at hq
      have hlt' : bumpN acc g < j := by
        unfold bumpN at he ⊢; split <;> split at he <;> omega
      exact ih (bumpN acc g) j hlt' q hq

/-- Once the counter has reached `j`, every later row with trip id `j` has a
recorded gap of at most 1800 seconds. -/
theorem dayCumsum_no_big_gap (l : List (Point × Nat)) :
    ∀ acc j, j ≤ acc → ∀ q ∈ dayCumsum acc l, q.2 = j → q.1.2 ≤ 1800 := by
  induction l with
  | nil => intro acc j _ q hq; simp [dayCumsum] at hq
  | cons head rest ih =>
    intro acc j hle q hq hqj
    obtain ⟨p, g⟩ := head
    rcases List.mem_cons.mp hq with rfl | hq'
    · have hj : bumpN acc g = j := hqj
      show g ≤ 1800
      unfold bumpN at hj; split at hj <;> omega
    · have hstep : acc ≤ bumpN acc g := by unfold bumpN; split <;> omega
      exact ih (bumpN acc g) j (le_trans hle hstep) q hq' hqj

/-- Every row after the first one of a trip has a recorded gap of at most
1800 seconds. -/
theorem dayCumsum_tail_small (l : List (Point × Nat)) :
    ∀ acc j, ∀ q ∈ ((dayCumsum acc l).filter (fun r => r.2 == j)).tail,
      q.1.2 ≤ 1800 := by
  induction l with
  | nil => intro acc j q hq; simp [dayCumsum] at hq
  | cons head rest ih =>
    intro acc j q hq
    obtain ⟨p, g⟩ := head
    rw [dayCumsum, List.filter_cons] at hq
    by_cases he : bumpN acc g = j
    · simp only [he, beq_self_eq_true, if_pos, List.tail_cons] at hq
      have hmem := List.mem_filter.mp hq
      exact dayCumsum_no_big_gap rest j j le_rfl q hmem.1
        (by simpa using hmem.2)
    · have hne : ((((p, g), bumpN acc g) : (Point × Nat) × Nat).2 == j) = false := by
        simp [he]
      rw [hne, if_neg (by simp)] at hq
      exact ih (bumpN acc g) j q hq

/-- Along a day-id group, each row's trip id is the previous row's trip id,
incremented exactly when the row's recorded gap exceeds the threshold: the
ids emerge in chronological order. -/
theorem dayCumsum_chain (l : List (Point × Nat)) :
    ∀ acc, List.Chain' (fun a b => b.2 = bumpN a.2 b.1.2) (dayCumsum acc l) := by
  induction l with
  | nil => intro acc; simp [dayCumsum]
  | cons head rest ih =>
    intro acc
    obtain ⟨p, g⟩ := head
    rw [dayCumsum, List.chain'_cons']
    refine ⟨?_, ih (bumpN acc g)⟩
    intro b hb
    cases rest with
    | nil => simp [dayCumsum] at hb
    | cons h2 t2 =>
      obtain ⟨p2, g2⟩ := h2
      rw [dayCumsum] at hb
      simp only [List.head?_cons, Option.mem_def, Option.some.injEq] at hb
      rw [← hb]

/-! ### The 30-second discretization loop -/

theorem timeGroupsGo_eq_range (endT : Nat) :
    ∀ fuel cur idx, endT + 1 - cur ≤ fuel →
      timeGroupsGo fuel endT cur idx =
        if cur ≤ endT then
          (List.range ((endT - cur) / 30 + 1)).map
            (fun k => (idx + k, fmtHMS (cur + 30 * k)))
        else [] := by
  intro fuel
  induction fuel with
  | zero =>
    intro cur idx h
    have hc : ¬ cur ≤ endT := by omega
    simp [timeGroupsGo, hc]
  | succ n ih =>
    intro cur idx h
    by_cases hc : cur ≤ endT
    · rw [timeGroupsGo, if_pos hc, if_pos hc, ih (cur + 30) (idx + 1) (by omega)]
      by_cases hc30 : cur + 30 ≤ endT
      · rw [if_pos hc30]
        conv_rhs =>
          rw [show (endT - cur) / 30 + 1 = ((endT - (cur + 30)) / 30 + 1) + 1 by omega,
            List.range_succ_eq_map, List.map_cons, List.map_map]
        have htail :
            List.map (fun k => (idx + 1 + k, fmtHMS (cur + 30 + 30 * k)))
                (List.range ((endT - (cur + 30)) / 30 + 1))
              = List.map ((fun k => (idx + k, fmtHMS (cur + 30 * k))) ∘ Nat.succ)
                (List.range ((endT - (cur + 30)) / 30 + 1)) := by
          apply List.map_congr_left
          intro k hk
          simp only [Function.comp_apply]
          have h1 : idx + 1 + k = idx + (k + 1) := by omega
          have h2 : cur + 30 + 30 * k = cur + 30 * (k + 1) := by ring
          rw [h1, h2]
        rw [htail]
        simp
      · rw [if_neg hc30]
        have harith : (endT - cur) / 30 + 1 = 1 := by omega
        rw [harith]
        simp [List.range_succ]
    · rw [timeGroupsGo, if_neg hc, if_neg hc]

/-! ### Day ordering in the exported hierarchy -/

theorem map_fst_groupByKey {α κ : Type} [DecidableEq κ] (key : α → κ)
    (le : κ → κ → Prop) [DecidableRel le] (l : List α) :
    (groupByKey key le l).map Prod.fst = List.insertionSort le (distinctKeysBy key l) := by
  unfold groupByKey
  rw [List.map_map]
  exact List.map_id _

theorem buildDaysDataFile_map_day_id (df : List Point) :
    (buildDaysDataFile df).map (fun d => d.day_id)
      = List.insertionSort strLeP (distinctKeysBy (fun r => r.1.1.day_id) (segRows df)) := by
  unfold buildDaysDataFile
  rw [List.map_map]
  exact map_fst_groupByKey (fun r => r.1.1.day_id) strLeP (segRows df)

/-! ### Claim theorems -/

/-- C1 (counterexample): the day-id group "b" of `exGapDays` exists, yet the
gap attributed to its first Point is 100000 (the distance to the globally
preceding point of day "a"), not 0, and its first Trip has index 1, not 0. -/
theorem first_gap_zero_cex :
    ("b" ∈ exGapDays.map (fun p => p.day_id))
  ∧ firstDayGap exGapDays "b" = some 100000
  ∧ firstDayTripId exGapDays "b" = some 1 := by decide

/-- C1 (amended): the gap attributed to a day-id group's first Point is its
`time_diff` against the immediately preceding row of the globally sorted
merged frame; only the overall first row is assigned gap 0.  Consequently the
first Trip of a day id has index 0 exactly when that cross-group gap is at
most 1800 seconds, and index 1 otherwise; and trip indices still increase in
chronological emergence order within each day id: along the day's rows they
are non-decreasing and each row's index is the previous row's index,
incremented exactly when the row's recorded gap exceeds 1800 seconds. -/
theorem trip_index_origin_amended (df : List Point) (d : String) :
    firstDayTripId df d
        = (firstDayGap df d).map (fun g => if 1800 < g then 1 else 0)
  ∧ ((segRows df).head?).map (fun r => r.1.2)
        = (if df.isEmpty then none else some 0)
  ∧ (dayRows df d).Pairwise (fun a b => a.2 ≤ b.2)
  ∧ List.Chain' (fun a b => b.2 = bumpN a.2 b.1.2) (dayRows df d) := by
  have hday_eq : dayRows df d
      = dayCumsum 0 ((withTimeDiff (sortByDatetime df)).filter
          (fun r => r.1.day_id == d)) := by
    unfold dayRows segRows
    exact assignAux_filter_day d _ (fun _ => 0)
  refine ⟨?_, ?_, ?_, ?_⟩
  · show ((dayRows df d).head?).map (fun r => r.2) = _
    unfold dayRows segRows firstDayGap
    rw [assignAux_filter_day]
    cases hfil : (withTimeDiff (sortByDatetime df)).filter
        (fun r => r.1.day_id == d) with
    | nil => rfl
    | cons hd tl =>
      obtain ⟨p, g⟩ := hd
      simp [dayCumsum, bumpN]
  · cases df with
    | nil => rfl
    | cons x xs =>
      have hne : sortByDatetime (x :: xs) ≠ [] := by
        intro hnil
        have hlen := (List.perm_insertionSort ptLE (x :: xs)).length_eq
        unfold sortByDatetime at hnil
        rw [hnil] at hlen
        simp at hlen
      obtain ⟨y, ys, hys⟩ := List.exists_cons_of_ne_nil hne
      unfold segRows
      rw [hys]
      simp [withTimeDiff, assignAux]
  · rw [hday_eq]
    exact dayCumsum_id_mono _ 0
  · rw [hday_eq]
    exact dayCumsum_chain _ 0

/-- C2 (counterexample): in `exDayOrder` the day id "b" is encountered first
in the merged input, yet the exported hierarchy lists day "a" first, because
`groupby('day_id')` sorts its keys. -/
theorem day_order_encounter_cex :
    distinctKeysBy (fun p => p.day_id) exDayOrder = ["b", "a"]
  ∧ (buildDaysDataFile exDayOrder).map (fun d => d.day_id) = ["a", "b"]
  ∧ (["a", "b"] : List String) ≠ ["b", "a"] := by
  refine ⟨by decide, ?_, by decide⟩
  rw [buildDaysDataFile_map_day_id]
  decide

/-- C2 (amended): the list of Days of the exported hierarchy is the list of
distinct day ids sorted ascending by the code-point lexicographic string
order (pandas `groupby` sorts group keys), not their first-encounter order. -/
theorem day_order_sorted_amended (df : List Point) :
    (buildDaysDataFile df).map (fun d => d.day_id)
        = List.insertionSort strLeP (distinctKeysBy (fun r => r.1.1.day_id) (segRows df))
  ∧ ((buildDaysDataFile df).map (fun d => d.day_id)).Sorted strLeP := by
  refine ⟨buildDaysDataFile_map_day_id df, ?_⟩
  rw [buildDaysDataFile_map_day_id df]
  exact List.sorted_insertionSort strLeP _

/-- C3 (code bug): a line matching the timestamp pattern with 8 fields is
accepted by the `len(parts) >= 7` check with all 8 fields kept, and the
subsequent 7-column `pd.DataFrame` construction then fails, so the source
does not load. -/
theorem extra_fields_reject_bug :
    parseLine "20240101080000,48.8566,N,2.3522,E,10.5,0.0,extra"
        = some ["20240101080000", "48.8566", "N", "2.3522", "E", "10.5", "0.0", "extra"]
  ∧ readAndParseData ["20240101080000,48.8566,N,2.3522,E,10.5,0.0,extra"]
        = Except.error "7 columns passed, passed data had more columns" :=
  ⟨by decide, rfl⟩

/-- C4 (code bug): with two sources selected, the first of which yields zero
records while the second contributes a record, the run aborts with the
single-source error of `read_and_parse_data`; the aggregate error is not
reached even though another source has data (the second source alone loads
fine). -/
theorem single_source_abort_bug :
    runAnalysis exSources
        = Except.error "Aucune donnee valide trouvee dans le fichier"
  ∧ runAnalysis exGoodSource = Except.ok (some
      [(["20240101080000", "48.8566", "N", "2.3522", "E", "10.5", "0.0"],
        "01/01/2024")]) :=
  ⟨rfl, rfl⟩

/-- C5 (counterexample): in `exBridged`, trip 0 of day "a" holds the points
at instants 0 and 3600; the gap between these consecutive trip points is
3600 > 1800 seconds, because the interleaved point of day "b" kept both
recorded `time_diff`s at the threshold. -/
theorem intra_trip_gap_cex :
    (tripRows exBridged "a" 0).map (fun r => r.1.1.instant) = [0, 3600]
  ∧ consecGaps ((tripRows exBridged "a" 0).map (fun r => r.1.1.instant)) = [3600]
  ∧ ¬ (3600 ≤ 1800) := by decide

/-- C5 (amended): within every trip the instants are non-decreasing, and
every trip row after the first has *recorded* gap (`time_diff`, measured
against the globally preceding row, possibly of another day id) at most 1800
seconds — the true instant gap between consecutive trip points may exceed
1800 when points of other day ids interleave.  Between consecutive trips of
one day id the instant gap strictly exceeds 1800 seconds. -/
theorem trip_invariants_amended (df : List Point) (d : String) (i : Nat) :
    ((tripRows df d i).map (fun r => r.1.1.instant)).Pairwise (· ≤ ·)
  ∧ (∀ q ∈ (tripRows df d i).tail, q.1.2 ≤ 1800)
  ∧ (∀ r ∈ tripRows df d i, ∀ q, (tripRows df d (i + 1)).head? = some q →
      r.1.1.instant + 1800 < q.1.1.instant) := by
  have hday_eq : dayRows df d
      = dayCumsum 0 ((withTimeDiff (sortByDatetime df)).filter
          (fun r => r.1.day_id == d)) := by
    unfold dayRows segRows
    exact assignAux_filter_day d _ (fun _ => 0)
  refine ⟨?_, ?_, ?_⟩
  · have h1 : (dayRows df d).Pairwise
        (fun a b => a.1.1.instant ≤ b.1.1.instant) :=
      List.Pairwise.filter _ (segRows_pairwise_le df)
    have h2 : (tripRows df d i).Pairwise
        (fun a b => a.1.1.instant ≤ b.1.1.instant) :=
      List.Pairwise.filter _ h1
    exact List.pairwise_map.mpr h2
  · intro q hq
    unfold tripRows at hq
    rw [hday_eq] at hq
    exact dayCumsum_tail_small _ 0 i q hq
  · intro r hr q hq
    have hq_mem : q ∈ tripRows df d (i + 1) := mem_of_head_eq hq
    have hr_day : r ∈ dayRows df d := (List.mem_filter.mp hr).1
    have hq_day : q ∈ dayRows df d := (List.mem_filter.mp hq_mem).1
    have hr_id : r.2 = i := by simpa using (List.mem_filter.mp hr).2
    have hq_id : q.2 = i + 1 := by simpa using (List.mem_filter.mp hq_mem).2
    have hgap_q : 1800 < q.1.2 := by
      unfold tripRows at hq
      rw [hday_eq] at hq
      exact dayCumsum_boundary _ 0 (i + 1) (Nat.succ_pos i) q hq
    have hpw : (dayRows df d).Pairwise
        (fun a b => a.2 ≤ b.2 ∧ a.1.1.instant + b.1.2 ≤ b.1.1.instant) := by
      refine List.Pairwise.and ?_ ?_
      · rw [hday_eq]
        exact dayCumsum_id_mono _ 0
      · exact List.Pairwise.filter _ (segRows_pairwise_gap df)
    have hne : r ≠ q := by
      intro hEq
      rw [hEq] at hr_id
      omega
    rcases pairwise_mem_rel hpw hr_day hq_day hne with hcase | hcase
    · have h := hcase.2
      omega
    · have h := hcase.1
      omega

/-- C5 (witness): in `exTwoTrips`, the single point of trip 0 and the head
of trip 1 of day "a" are more than 1800 seconds apart. -/
theorem trip_invariants_amended_witness :
    (mkPt 0 "a").instant + 1800 < (mkPt 2000 "a").instant :=
  (trip_invariants_amended exTwoTrips "a" 0).2.2
    ((mkPt 0 "a", 0), 0) (by decide)
    ((mkPt 2000 "a", 2000), 1) (by decide)

/-- C7 (counterexample): `exOrderA` and `exOrderB` present the same multiset
of Points, yet segmentation assigns the point `(5000, day "a")` to trip 1 in
one run and to trip 0 in the other: the trip assignment is not a function of
the multiset. -/
theorem segmentation_multiset_cex :
    exOrderA.Perm exOrderB
  ∧ ¬ (segAssign exOrderA).Perm (segAssign exOrderB) := by
  constructor
  · decide
  · decide

/-- C7 (amended): segmentation is a deterministic function of the input
sequence, and it is multiset-deterministic on collections whose instants are
pairwise distinct: any two orderings of such a multiset produce identical
segmented frames.  (Points of different day ids sharing an instant can swap
trip indices under reordering, as the counterexample shows.) -/
theorem segmentation_deterministic_amended (l1 l2 : List Point)
    (hp : l1.Perm l2)
    (hd : l1.Pairwise (fun a b => a.instant ≠ b.instant)) :
    segRows l1 = segRows l2 := by
  have hsym : ∀ {x y : Point}, x.instant ≠ y.instant → y.instant ≠ x.instant :=
    fun h => Ne.symm h
  have hsort : sortByDatetime l1 = sortByDatetime l2 := by
    have hperm : (sortByDatetime l1).Perm (sortByDatetime l2) :=
      ((List.perm_insertionSort ptLE l1).trans hp).trans
        (List.perm_insertionSort ptLE l2).symm
    have hs1 : (sortByDatetime l1).Pairwise ptLE :=
      List.sorted_insertionSort ptLE l1
    have hs2 : (sortByDatetime l2).Pairwise ptLE :=
      List.sorted_insertionSort ptLE l2
    have hd1 : (sortByDatetime l1).Pairwise
        (fun a b => a.instant ≠ b.instant) :=
      ((List.perm_insertionSort ptLE l1).pairwise_iff hsym).mpr hd
    have hd2 : (sortByDatetime l2).Pairwise
        (fun a b => a.instant ≠ b.instant) :=
      ((List.perm_insertionSort ptLE l2).pairwise_iff hsym).mpr
        ((hp.pairwise_iff hsym).mp hd)
    have hlt1 : (sortByDatetime l1).Pairwise ptLT :=
      (hs1.and hd1).imp (fun h => Nat.lt_of_le_of_ne h.1 h.2)
    have hlt2 : (sortByDatetime l2).Pairwise ptLT :=
      (hs2.and hd2).imp (fun h => Nat.lt_of_le_of_ne h.1 h.2)
    exact List.eq_of_perm_of_sorted hperm hlt1 hlt2
  unfold segRows
  rw [hsort]

/-- C7 (witness): two orderings of a two-point multiset with distinct
instants segment identically. -/
theorem segmentation_deterministic_witness :
    ([mkPt 0 "a", mkPt 40 "b"].Perm [mkPt 40 "b", mkPt 0 "a"])
  ∧ segRows [mkPt 0 "a", mkPt 40 "b"] = segRows [mkPt 40 "b", mkPt 0 "a"] :=
  ⟨List.Perm.swap (mkPt 40 "b") (mkPt 0 "a") [],
   segmentation_deterministic_amended _ _
     (List.Perm.swap (mkPt 40 "b") (mkPt 0 "a") []) (by decide)⟩

/-- C8: normalization negates the latitude exactly when the latitude flag is
the exact string "S" and the longitude exactly when the longitude flag is
"W"; any other flag (including lowercase) leaves the value unchanged, and for
a positive magnitude the sign of the normalized value recovers the flag. -/
theorem hemisphere_sign_roundtrip (m : ℚ) (latInd lonInd : String)
    (hm : 0 < m) :
    (latInd = "S" → applySouthFlag m latInd = -m)
  ∧ (latInd ≠ "S" → applySouthFlag m latInd = m)
  ∧ |applySouthFlag m latInd| = m
  ∧ ((applySouthFlag m latInd < 0) ↔ latInd = "S")
  ∧ (lonInd = "W" → applyWestFlag m lonInd = -m)
  ∧ (lonInd ≠ "W" → applyWestFlag m lonInd = m)
  ∧ |applyWestFlag m lonInd| = m
  ∧ ((applyWestFlag m lonInd < 0) ↔ lonInd = "W") := by
  have habs : |m| = m := abs_of_pos hm
  have hneg : -m < 0 := neg_lt_zero.mpr hm
  have hnlt : ¬ m < 0 := not_lt.mpr hm.le
  unfold applySouthFlag applyWestFlag
  by_cases hS : latInd = "S" <;> by_cases hW : lonInd = "W" <;>
    simp [hS, hW, abs_neg, habs, hneg, hnlt]

/-- C8 (witness): at magnitude 1, a lowercase "s" flag leaves the latitude
unchanged (case-sensitive match) and a "W" flag negates the longitude. -/
theorem hemisphere_sign_roundtrip_witness :
    (0 : ℚ) < 1
  ∧ applySouthFlag 1 "s" = 1
  ∧ applyWestFlag 1 "W" = -1 :=
  ⟨one_pos,
   (hemisphere_sign_roundtrip 1 "s" "W" one_pos).2.1 (by decide),
   (hemisphere_sign_roundtrip 1 "s" "W" one_pos).2.2.2.2.1 rfl⟩

theorem foldl_min_le (xs : List Nat) : ∀ x, xs.foldl Nat.min x ≤ x := by
  induction xs with
  | nil => intro x; exact le_rfl
  | cons y ys ih =>
    intro x
    exact le_trans (ih (Nat.min x y)) (Nat.min_le_left x y)

theorem le_foldl_max (xs : List Nat) : ∀ x, x ≤ xs.foldl Nat.max x := by
  induction xs with
  | nil => intro x; exact le_rfl
  | cons y ys ih =>
    intro x
    exact le_trans (Nat.le_max_left x y) (ih (Nat.max x y))

/-- A trip's start instant never exceeds its end instant. -/
theorem seriesMin_le_seriesMax (l : List Nat) : seriesMin l ≤ seriesMax l := by
  cases l with
  | nil => exact le_rfl
  | cons x xs => exact le_trans (foldl_min_le xs x) (le_foldl_max xs x)

/-- C9: for a trip with start instant `s` and end instant `e ≥ s` (and the
start never exceeds the end, witnessed by `seriesMin_le_seriesMax` on the
trip's instants), the time-group sequence is exactly one group per `k` with
`s + 30·k ≤ e`, group `k` carrying zero-based index `k` and the time of day
of `s + 30·k`; hence it has `(e - s) / 30 + 1` groups and is never empty. -/
theorem time_groups_spec (s e : Nat) (h : s ≤ e) :
    timeGroups s e
        = (List.range ((e - s) / 30 + 1)).map (fun k => (k, fmtHMS (s + 30 * k)))
  ∧ (timeGroups s e).length = (e - s) / 30 + 1
  ∧ timeGroups s e ≠ []
  ∧ (∀ l : List Nat, seriesMin l ≤ seriesMax l) := by
  have hgo := timeGroupsGo_eq_range e (e + 1 - s) s 0 le_rfl
  rw [if_pos h] at hgo
  have h0 : (List.range ((e - s) / 30 + 1)).map
        (fun k => (0 + k, fmtHMS (s + 30 * k)))
      = (List.range ((e - s) / 30 + 1)).map (fun k => (k, fmtHMS (s + 30 * k))) := by
    apply List.map_congr_left
    intro k _
    simp
  have hmain : timeGroups s e
      = (List.range ((e - s) / 30 + 1)).map (fun k => (k, fmtHMS (s + 30 * k))) := by
    rw [timeGroups, hgo, h0]
  refine ⟨hmain, ?_, ?_, seriesMin_le_seriesMax⟩
  · rw [hmain]
    simp
  · rw [hmain]
    simp

/-- C9 (witness): a 65-second trip starting at instant 0 yields exactly the
groups 0, 1, 2 at 0 s, 30 s and 60 s. -/
theorem time_groups_spec_witness :
    (0 : Nat) ≤ 65
  ∧ timeGroups 0 65 = [(0, "00:00:00"), (1, "00:00:30"), (2, "00:01:00")] := by
  refine ⟨by decide, ?_⟩
  rw [(time_groups_spec 0 65 (by decide)).1]
  decide

/-- C10: `generate_data_file` and `generate_standalone_html` build identical
day→trip→point hierarchies on every segmented dataset: the two source blocks
are verbatim copies, so the embedded builders coincide definitionally. -/
theorem export_builders_equal :
    ∀ df : List Point, buildDaysDataFile df = buildDaysStandalone df :=
  fun _ => rfl
